import Mathlib

/-
Verification development for the pyHanko PDF reading / encryption core.

This file gives a shallow embedding, in Lean, of the parts of
pyhanko/pdf_utils/reader.py and pyhanko/pdf_utils/crypt.py that the
specification talks about, and proves (or refutes) the spec's claims
about them.  Python dictionaries are modelled as association lists,
Python sets as duplicate-free lists, byte strings as lists of naturals,
exceptions as Except values, and the external cryptographic primitives
(hashlib, oscrypto) as function parameters with their documented
behaviour.
-/

namespace PdfUtils

/-- Association-list lookup, mirroring a Python dict read (first binding for
the key wins; the model maintains at most one binding per key). -/
def alookup {α β : Type} [DecidableEq α] (k : α) : List (α × β) → Option β
  | [] => none
  | (k', v) :: rest => if k' = k then some v else alookup k rest

/-- Association-list update, mirroring a Python dict assignment. -/
def aupdate {α β : Type} [DecidableEq α] (k : α) (v : β) : List (α × β) → List (α × β)
  | [] => [(k, v)]
  | (k', v') :: rest => if k' = k then (k, v) :: rest else (k', v') :: aupdate k v rest

/-- Association-list removal, mirroring a Python dict.pop. -/
def aerase {α β : Type} [DecidableEq α] (k : α) : List (α × β) → List (α × β)
  | [] => []
  | (k', v') :: rest => if k' = k then rest else (k', v') :: aerase k rest

/-- Set insertion, mirroring a Python set.add. -/
def sinsert {α : Type} [DecidableEq α] (x : α) (s : List α) : List α :=
  if x ∈ s then s else x :: s

theorem alookup_aupdate_self {α β : Type} [DecidableEq α] (k : α) (v : β)
    (l : List (α × β)) : alookup k (aupdate k v l) = some v := by
  induction l with
  | nil => simp [alookup, aupdate]
  | cons hd tl ih =>
    obtain ⟨k', v'⟩ := hd
    by_cases h : k' = k <;> simp [alookup, aupdate, h, ih]

theorem alookup_aupdate_ne {α β : Type} [DecidableEq α] {k k' : α} (v : β)
    (l : List (α × β)) (h : k' ≠ k) :
    alookup k (aupdate k' v l) = alookup k l := by
  induction l with
  | nil => simp [alookup, aupdate, h]
  | cons hd tl ih =>
    obtain ⟨k'', v''⟩ := hd
    by_cases h2 : k'' = k' <;> by_cases h3 : k'' = k <;>
      simp_all [alookup, aupdate]

theorem alookup_aerase_ne {α β : Type} [DecidableEq α] {k k' : α}
    (l : List (α × β)) (h : k' ≠ k) :
    alookup k (aerase k' l) = alookup k l := by
  induction l with
  | nil => simp [aerase]
  | cons hd tl ih =>
    obtain ⟨k'', v''⟩ := hd
    by_cases h2 : k'' = k' <;> by_cases h3 : k'' = k <;>
      simp_all [alookup, aerase]

theorem alookup_mem {α β : Type} [DecidableEq α] {k : α} {v : β}
    {l : List (α × β)} (h : alookup k l = some v) : (k, v) ∈ l := by
  induction l with
  | nil => simp [alookup] at h
  | cons hd tl ih =>
    obtain ⟨k', v'⟩ := hd
    by_cases h2 : k' = k
    · subst h2
      simp [alookup] at h
      subst h
      exact List.mem_cons_self _ _
    · simp [alookup, h2] at h
      exact List.mem_cons_of_mem _ (ih h)

theorem alookup_ne_none_of_some {α β : Type} [DecidableEq α] {k : α} {v : β}
    {l : List (α × β)} (h : alookup k l = some v) : l ≠ [] := by
  intro hnil
  subst hnil
  simp [alookup] at h

theorem find?_congr {α : Type} (p q : α → Bool) (l : List α)
    (h : ∀ x, p x = q x) : l.find? p = l.find? q := by
  induction l with
  | nil => rfl
  | cons hd tl ih => simp [List.find?, h hd, ih]

namespace Reader

/-- Marker recorded for an object in the xref data: either a byte offset of a
standard indirect object, a position inside an object stream, or the null
object that a freeing instruction stores. -/
inductive Marker where
  | offset (start : Nat)
  | inObjStream (objStreamNum objStreamIx : Nat)
  | null
deriving DecidableEq

/-- Typed read errors raised by the xref-parsing code (reader.py raises
PdfReadError with a formatted message; the constructors carry the data the
messages interpolate). -/
inductive PdfReadError where
  | generationFreedConflict (conflictingGen idnum prevGeneration : Nat)
  | freeingNextGenMismatch (nextGeneration idnum expectedGeneration : Nat)
  | neverFreedButReused (generation idnum : Nat)
  | illegalGeneration (generation idnum : Nat)
  | orphanedObjects (orphans : List (Nat × Nat))
  | notFoundInHistory (idnum generation revision : Nat)
deriving DecidableEq

/-- State of XRefCache (reader.py), restricted to the fields the xref-side
operations read or write.  References are (idnum, generation) pairs. -/
structure XRefCache where
  xref_sections : Nat
  standard_xrefs : List ((Nat × Nat) × Marker)
  in_obj_stream : List (Nat × (Nat × Nat))
  last_change : List (Nat × Nat)
  history : List ((Nat × Nat) × List (Nat × Marker))
  current_section_ids : List (Nat × Nat)
  current_section_freed : List (Nat × Nat)
  refs_by_section : List (List (Nat × Nat))
  freed_by_section : List (List (Nat × Nat))
  generations : List (Nat × List Nat)
  previous_expected_free : List (Nat × Nat)
  obj_streams_by_revision : List (Nat × List (Nat × Nat))
deriving DecidableEq

/-- Initial state built by XRefCache.__init__. -/
def XRefCache.init : XRefCache where
  xref_sections := 0
  standard_xrefs := []
  in_obj_stream := []
  last_change := []
  history := []
  current_section_ids := []
  current_section_freed := []
  refs_by_section := []
  freed_by_section := []
  generations := []
  previous_expected_free := []
  obj_streams_by_revision := []

/-- XRefCache.used_later: whether the generation was already seen for this id
in a later (i.e. previously parsed) section. -/
def XRefCache.used_later (cache : XRefCache) (idnum generation : Nat) : Bool :=
  match alookup idnum cache.generations with
  | some gens => gens.contains generation
  | none => false

/-- XRefCache.free_ref (reader.py lines 111-150). -/
def XRefCache.free_ref (cache : XRefCache) (idnum next_generation : Nat) :
    Except PdfReadError XRefCache :=
  if idnum = 0 then .ok cache
  else
    let prev_generation := if next_generation ≠ 0 then next_generation - 1 else 0xffff
    let c := { cache with
      standard_xrefs := aupdate (prev_generation, idnum) Marker.null cache.standard_xrefs,
      current_section_freed := sinsert (idnum, prev_generation) cache.current_section_freed,
      current_section_ids := sinsert (idnum, prev_generation) cache.current_section_ids }
    let genStep : Except PdfReadError XRefCache :=
      match alookup idnum c.generations with
      | none => .ok { c with generations := aupdate idnum [prev_generation] c.generations }
      | some gens =>
        match gens.find? (fun gen => gen ≤ prev_generation) with
        | some conflictingGen =>
          .error (.generationFreedConflict conflictingGen idnum prev_generation)
        | none =>
          .ok { c with generations := aupdate idnum (sinsert prev_generation gens) c.generations }
    match genStep with
    | .error e => .error e
    | .ok c2 =>
      let c3 :=
        if alookup idnum c2.last_change = none then
          { c2 with last_change := aupdate idnum c2.xref_sections c2.last_change }
        else c2
      match alookup idnum c3.previous_expected_free with
      | none => .ok c3
      | some expected_generation =>
        let c4 := { c3 with
          previous_expected_free := aerase idnum c3.previous_expected_free }
        if expected_generation ≠ next_generation then
          .error (.freeingNextGenMismatch next_generation idnum expected_generation)
        else .ok c4

/-- XRefCache.put_ref (reader.py lines 152-174). -/
def XRefCache.put_ref (cache : XRefCache) (idnum generation start : Nat) :
    Except PdfReadError XRefCache :=
  if alookup idnum cache.previous_expected_free ≠ none then
    .error (.neverFreedButReused generation idnum)
  else if generation > 0xffff then
    .error (.illegalGeneration generation idnum)
  else
    let c :=
      if generation > 0 then
        { cache with
          previous_expected_free := aupdate idnum generation cache.previous_expected_free }
      else cache
    let c2 :=
      if c.used_later idnum generation then
        let gens := (alookup idnum c.generations).getD []
        { c with generations := aupdate idnum (sinsert generation gens) c.generations }
      else
        { c with
          standard_xrefs := aupdate (generation, idnum) (Marker.offset start) c.standard_xrefs,
          last_change := aupdate idnum c.xref_sections c.last_change,
          generations := aupdate idnum [generation] c.generations }
    let hist := ((alookup (generation, idnum) c2.history).getD [])
      ++ [(c2.xref_sections, Marker.offset start)]
    .ok { c2 with
      history := aupdate (generation, idnum) hist c2.history,
      current_section_ids := sinsert (idnum, generation) c2.current_section_ids }

/-- XRefCache.put_obj_stream_ref (reader.py lines 176-187). -/
def XRefCache.put_obj_stream_ref (cache : XRefCache)
    (idnum obj_stream_num obj_stream_ix : Nat) : XRefCache :=
  let objStreams := sinsert (obj_stream_num, 0)
    ((alookup cache.xref_sections cache.obj_streams_by_revision).getD [])
  let c := { cache with
    obj_streams_by_revision :=
      aupdate cache.xref_sections objStreams cache.obj_streams_by_revision }
  let c2 :=
    if c.used_later idnum 0 then c
    else
      { c with
        in_obj_stream := aupdate idnum (obj_stream_num, obj_stream_ix) c.in_obj_stream,
        last_change := aupdate idnum c.xref_sections c.last_change,
        generations := aupdate idnum [0] c.generations }
  let hist := ((alookup (0, idnum) c2.history).getD [])
    ++ [(c2.xref_sections, Marker.inObjStream obj_stream_num obj_stream_ix)]
  { c2 with
    history := aupdate (0, idnum) hist c2.history,
    current_section_ids := sinsert (idnum, 0) c2.current_section_ids }

/-- XRefCache._next_section (reader.py lines 97-102). -/
def XRefCache.next_section (cache : XRefCache) : XRefCache :=
  { cache with
    xref_sections := cache.xref_sections + 1,
    refs_by_section := cache.refs_by_section ++ [cache.current_section_ids],
    current_section_ids := [],
    freed_by_section := cache.freed_by_section ++ [cache.current_section_freed],
    current_section_freed := [] }

/-- XRefCache.get_historical_ref (reader.py lines 245-271): scan the per-ref
history (stored in parse order, newest section first) for the first entry
whose condition revision >= max_index - rev_index holds, over Python
integers. -/
def XRefCache.get_historical_ref (cache : XRefCache) (idnum generation revision : Nat) :
    Except PdfReadError Marker :=
  let maxIndex : Int := (cache.xref_sections : Int) - 1
  let hist := (alookup (generation, idnum) cache.history).getD []
  match hist.find? (fun e => decide ((revision : Int) ≥ maxIndex - (e.1 : Int))) with
  | some e => .ok e.2
  | none => .error (.notFoundInHistory idnum generation revision)

/-- One xref entry event as fed to the cache during parsing. -/
inductive XRefEvent where
  | putRef (idnum generation start : Nat)
  | freeRef (idnum next_generation : Nat)
  | putObjStreamRef (idnum obj_stream_num obj_stream_ix : Nat)
  | nextSection
deriving DecidableEq

/-- Dispatch of one parsing event to the corresponding cache operation. -/
def applyEvent (cache : XRefCache) : XRefEvent → Except PdfReadError XRefCache
  | .putRef i g s => cache.put_ref i g s
  | .freeRef i g => cache.free_ref i g
  | .putObjStreamRef i n ix => .ok (cache.put_obj_stream_ref i n ix)
  | .nextSection => .ok cache.next_section

/-- Processing of a sequence of parsing events, stopping at the first error
(an uncaught PdfReadError aborts PdfFileReader.read). -/
def processEvents (cache : XRefCache) : List XRefEvent → Except PdfReadError XRefCache
  | [] => .ok cache
  | e :: rest =>
    match applyEvent cache e with
    | .error err => .error err
    | .ok c => processEvents c rest

/-- Final consistency check of PdfFileReader._read_xrefs (reader.py lines
870-878): after all xref sections are read, a non-empty expected-free map is
a fatal error naming the orphaned objects. -/
def orphanCheck (cache : XRefCache) : Except PdfReadError Unit :=
  if cache.previous_expected_free = [] then .ok ()
  else .error (.orphanedObjects cache.previous_expected_free)

/-- The function convert_to_int (reader.py lines 1022-1027): for sizes up to
8 it pads to 8 bytes and unpacks with struct format ">q" (big-endian signed
64-bit); for larger sizes it evaluates the Python expression
sum(digit ** (size - ix - 1)), including Python's 0 ** 0 = 1. -/
def convert_to_int (d : List Nat) (size : Nat) : Int :=
  if size ≤ 8 then
    let padded := List.replicate (8 - size) 0 ++ d
    let u : Nat := padded.foldl (fun acc b => acc * 256 + b) 0
    if u < 9223372036854775808 then (u : Int) else (u : Int) - 18446744073709551616
  else
    (d.enum.map (fun p => (p.2 : Int) ^ (size - p.1 - 1))).sum

/-- Modelled from the spec: the big-endian unsigned integer value of a byte
string, the reading the claim prescribes for xref stream entry fields. -/
def beNat (d : List Nat) : Nat :=
  d.foldl (fun acc b => acc * 256 + b) 0

/-- The helper get_entry of XRefCache.read_xref_stream (reader.py lines
342-354): a field of positive declared width is decoded from the bytes read
off the stream, a width-zero field defaults to 1 for the type field (index
0) and to 0 otherwise. -/
def get_entry (entry_sizes : List Nat) (ix : Nat) (d : List Nat) : Int :=
  if 0 < entry_sizes.getD ix 0 then convert_to_int d (entry_sizes.getD ix 0)
  else if ix = 0 then 1 else 0

/-- Sample cache used to exercise get_historical_ref on concrete data:
three revisions, object (5, 0) written in the newest section (internal
index 0) and in the oldest section (internal index 2). -/
def sampleHistCache : XRefCache :=
  { XRefCache.init with
    xref_sections := 3,
    history := [((0, 5), [(0, Marker.offset 50), (2, Marker.offset 100)])] }

/-- Concrete cache state right after put_ref 3 1 100 on the initial state. -/
def sampleCacheAfterPut : XRefCache :=
  { XRefCache.init with
    standard_xrefs := [((1, 3), Marker.offset 100)],
    last_change := [(3, 0)],
    history := [((1, 3), [(0, Marker.offset 100)])],
    current_section_ids := [(3, 1)],
    generations := [(3, [1])],
    previous_expected_free := [(3, 1)] }

/-- Concrete cache state after additionally closing the section. -/
def sampleCacheFinal : XRefCache :=
  { sampleCacheAfterPut with
    xref_sections := 1,
    refs_by_section := [[(3, 1)]],
    current_section_ids := [],
    freed_by_section := [[]],
    current_section_freed := [] }

end Reader

namespace Crypt

/-- Errors raised by crypt.py: misc.PdfError for tampered permissions, and
misc.PdfReadError with its two distinct messages for key retrieval. -/
inductive PdfError where
  | permsTamperError
  | authenticationFailed
  | noKeyAvailable
deriving DecidableEq

/-- Outcome of an authentication attempt (crypt.py AuthResult). -/
inductive AuthResult where
  | FAILED
  | USER
  | OWNER
deriving DecidableEq

/-- The 32-byte padding constant of algorithm 3.2 (crypt.py lines 88-92). -/
def _encryption_padding : List Nat :=
  [0x28, 0xbf, 0x4e, 0x5e, 0x4e, 0x75, 0x8a, 0x41, 0x64, 0x00, 0x4e, 0x56,
   0xff, 0xfa, 0x01, 0x08, 0x2e, 0x2e, 0x00, 0xb6, 0xd0, 0x68, 0x3e, 0x80,
   0x2f, 0x0c, 0xa9, 0xfe, 0x64, 0x53, 0x69, 0x7a]

/-- Bytes of struct.pack with format "<i": the 32-bit little-endian
two's-complement encoding of an integer. -/
def packLEi32 (p : Int) : List Nat :=
  let u := (p % 4294967296).toNat
  [u % 256, u / 256 % 256, u / 65536 % 256, u / 16777216 % 256]

/-- Value of struct.unpack with format "<i" on (up to) four bytes, i.e. the
little-endian bytes read back as a signed 32-bit integer. -/
def leSigned32 (d : List Nat) : Int :=
  let u : Nat := d.foldr (fun b acc => b + 256 * acc) 0
  if u < 2147483648 then (u : Int) else (u : Int) - 4294967296

/-- The function _derive_legacy_file_key (crypt.py lines 97-136), with the
external MD5 primitive passed as a parameter; the incremental hash updates
of the Python code appear as concatenations of the hashed pieces. -/
def _derive_legacy_file_key (md5 : List Nat → List Nat)
    (password : List Nat) (rev keylen : Nat) (owner_entry : List Nat)
    (p_entry : Int) (id1_entry : List Nat) (metadata_encrypt : Bool) : List Nat :=
  let password := (password ++ _encryption_padding).take 32
  let m := password
  let m := m ++ owner_entry
  let m := m ++ packLEi32 p_entry
  let m := m ++ id1_entry
  let m := if 4 ≤ rev ∧ metadata_encrypt = false then m ++ [0xff, 0xff, 0xff, 0xff] else m
  let md5_hash := md5 m
  let md5_hash :=
    if 3 ≤ rev then (fun digest => md5 (digest.take keylen))^[50] md5_hash else md5_hash
  md5_hash.take keylen

/-- External hash and cipher primitives used by the R6 (AES-256) algorithms:
SHA-2 digests (hashlib) and AES-CBC without padding (oscrypto), all taken
as parameters of the embedding.  The cipher functions take key, data and
IV, and return ciphertext respectively plaintext. -/
structure R6Crypto where
  sha256 : List Nat → List Nat
  sha384 : List Nat → List Nat
  sha512 : List Nat → List Nat
  aes_cbc_no_padding_encrypt : List Nat → List Nat → List Nat → List Nat
  aes_cbc_no_padding_decrypt : List Nat → List Nat → List Nat → List Nat

/-- The function _bytes_mod_3 (crypt.py lines 186-188). -/
def _bytes_mod_3 (input_bytes : List Nat) : Nat :=
  (input_bytes.map (fun b => b % 3)).sum % 3

/-- Loop state of _r6_hash_algo: current digest, round counter, and the last
byte of the most recent AES-encrypted block. -/
structure R6LoopState where
  k : List Nat
  round_no : Nat
  last_byte_val : Nat
deriving DecidableEq

/-- Continuation condition of the while loop in _r6_hash_algo (crypt.py line
203), over Python (unbounded, signed) integers. -/
def r6Continue (st : R6LoopState) : Bool :=
  decide (st.round_no < 64) || decide ((st.last_byte_val : Int) > (st.round_no : Int) - 32)

/-- One iteration of the _r6_hash_algo loop body (crypt.py lines 204-213). -/
def r6Step (C : R6Crypto) (pw_bytes uB : List Nat) (st : R6LoopState) : R6LoopState :=
  let k1 := (List.replicate 64 (pw_bytes ++ st.k ++ uB)).flatten
  let e := C.aes_cbc_no_padding_encrypt (st.k.take 16) k1 ((st.k.drop 16).take 16)
  let next_hash :=
    match _bytes_mod_3 (e.take 16) with
    | 0 => C.sha256
    | 1 => C.sha384
    | _ => C.sha512
  { k := next_hash e, round_no := st.round_no + 1, last_byte_val := e.getLastD 0 }

/-- Fuel-bounded unfolding of the while loop of _r6_hash_algo.  The Python
loop is unbounded; the theorem on termination shows that with byte-valued
cipher output the continuation condition fails before 300 iterations, so any
fuel of at least 300 computes the loop's true fixpoint. -/
def r6Loop (C : R6Crypto) (pw_bytes uB : List Nat) : Nat → R6LoopState → R6LoopState
  | 0, st => st
  | fuel + 1, st =>
    if r6Continue st then r6Loop C pw_bytes uB fuel (r6Step C pw_bytes uB st) else st

/-- Initial loop state of _r6_hash_algo (crypt.py lines 194-202). -/
def r6InitState (C : R6Crypto) (pw_bytes current_salt : List Nat)
    (u_entry : Option (List Nat)) : R6LoopState :=
  { k := C.sha256 (pw_bytes ++ current_salt ++ u_entry.getD []),
    round_no := 0, last_byte_val := 0 }

/-- The function _r6_hash_algo (crypt.py lines 192-214). -/
def _r6_hash_algo (C : R6Crypto) (pw_bytes current_salt : List Nat)
    (u_entry : Option (List Nat)) : List Nat :=
  (r6Loop C pw_bytes (u_entry.getD []) 300 (r6InitState C pw_bytes current_salt u_entry)).k.take 32

/-- The record _R6KeyEntry (crypt.py lines 139-148). -/
structure R6KeyEntry where
  hash_value : List Nat
  validation_salt : List Nat
  key_salt : List Nat
deriving DecidableEq

/-- _R6KeyEntry.from_bytes: split a 48-byte /O or /U entry. -/
def R6KeyEntry.from_bytes (entry : List Nat) : R6KeyEntry :=
  { hash_value := entry.take 32,
    validation_salt := (entry.drop 32).take 8,
    key_salt := (entry.drop 40).take 8 }

/-- The function _r6_normalise_pw for byte-string input (crypt.py line 162). -/
def _r6_normalise_pw (password : List Nat) : List Nat :=
  password.take 127

/-- The function _r6_password_authenticate (crypt.py lines 165-168). -/
def _r6_password_authenticate (C : R6Crypto) (pw_bytes : List Nat)
    (entry : R6KeyEntry) (u_entry : Option (List Nat)) : Bool :=
  decide (_r6_hash_algo C pw_bytes entry.validation_salt u_entry = entry.hash_value)

/-- The function _r6_derive_file_key (crypt.py lines 171-177). -/
def _r6_derive_file_key (C : R6Crypto) (pw_bytes : List Nat) (entry : R6KeyEntry)
    (e_entry : List Nat) (u_entry : Option (List Nat)) : List Nat :=
  C.aes_cbc_no_padding_decrypt (_r6_hash_algo C pw_bytes entry.key_salt u_entry)
    e_entry (List.replicate 16 0)

/-- State of a revision-6 StandardSecurityHandler relevant to
_authenticate_r6: the password-verification tokens, the encrypted file key
seeds, the encrypted permissions, the permission flags, and the
metadata-encryption flag. -/
structure StdSecHandlerR6 where
  odata : List Nat
  udata : List Nat
  oeseed : List Nat
  ueseed : List Nat
  encrypted_perms : List Nat
  perms : Int
  encrypt_metadata : Bool
deriving DecidableEq

/-- The /Perms plausibility check inside _authenticate_r6 (crypt.py lines
1631-1643), on the already-decrypted 16-byte permissions block. -/
def r6_perms_ok (h : StdSecHandlerR6) (decrypted_p_entry : List Nat) : Bool :=
  let perms_ok := decide ((decrypted_p_entry.drop 9).take 3 = [0x61, 0x64, 0x62])
  let perms_ok := perms_ok && decide (h.perms = leSigned32 (decrypted_p_entry.take 4))
  if decrypted_p_entry.getD 8 0 = 0x54 then perms_ok && (h.encrypt_metadata == true)
  else if decrypted_p_entry.getD 8 0 = 0x46 then perms_ok && (h.encrypt_metadata == false)
  else false

/-- The method StandardSecurityHandler._authenticate_r6 (crypt.py lines
1611-1650). -/
def _authenticate_r6 (C : R6Crypto) (h : StdSecHandlerR6) (password : List Nat) :
    Except PdfError (AuthResult × Option (List Nat)) :=
  let pw_bytes := _r6_normalise_pw password
  let o_entry_split := R6KeyEntry.from_bytes h.odata
  let u_entry_split := R6KeyEntry.from_bytes h.udata
  let resultKey : Option (AuthResult × List Nat) :=
    if _r6_password_authenticate C pw_bytes o_entry_split (some h.udata) then
      some (AuthResult.OWNER,
        _r6_derive_file_key C pw_bytes o_entry_split h.oeseed (some h.udata))
    else if _r6_password_authenticate C pw_bytes u_entry_split none then
      some (AuthResult.USER, _r6_derive_file_key C pw_bytes u_entry_split h.ueseed none)
    else none
  match resultKey with
  | none => .ok (AuthResult.FAILED, none)
  | some (result, key) =>
    let decrypted_p_entry :=
      C.aes_cbc_no_padding_decrypt key h.encrypted_perms (List.replicate 16 0)
    if r6_perms_ok h decrypted_p_entry then .ok (result, some key)
    else .error .permsTamperError

/-- Spec-side transcription of the /Perms verification conditions of the
claim: bytes 9..11 spell "adb", the first four bytes read back (little
endian, signed) as the stored permission flags, and byte 8 is 0x54 exactly
when metadata encryption is on and 0x46 exactly when it is off. -/
def r6PermsSpecOk (h : StdSecHandlerR6) (decrypted_p_entry : List Nat) : Prop :=
  (decrypted_p_entry.drop 9).take 3 = [0x61, 0x64, 0x62] ∧
  h.perms = leSigned32 (decrypted_p_entry.take 4) ∧
  (decrypted_p_entry.getD 8 0 = 0x54 ↔ h.encrypt_metadata = true) ∧
  (decrypted_p_entry.getD 8 0 = 0x46 ↔ h.encrypt_metadata = false)

/-- Byte-wise exclusive or, truncating to the shorter operand. -/
def xorBytes (a b : List Nat) : List Nat :=
  List.zipWith (fun x y => x ^^^ y) a b

/-- PKCS#7 padding to a 16-byte block boundary. -/
def pkcs7Pad (l : List Nat) : List Nat :=
  let k := 16 - l.length % 16
  l ++ List.replicate k k

/-- PKCS#7 unpadding: drop as many trailing bytes as the last byte says. -/
def pkcs7Unpad (l : List Nat) : List Nat :=
  l.take (l.length - l.getLastD 0)

/-- Split a byte string into consecutive 16-byte blocks (the last block may
be shorter if the length is not a multiple of 16). -/
def toBlocks : List Nat → List (List Nat)
  | [] => []
  | a :: rest => (a :: rest.take 15) :: toBlocks (rest.drop 15)
termination_by l => l.length
decreasing_by simp; omega

/-- CBC encryption over a block sequence with a keyed block cipher E: each
block is xored with the previous ciphertext block (initially the IV) and
then enciphered. -/
def cbcEnc (E : List Nat → List Nat) : List Nat → List (List Nat) → List (List Nat)
  | _, [] => []
  | iv, p :: ps =>
    let c := E (xorBytes iv p)
    c :: cbcEnc E c ps

/-- CBC decryption over a block sequence with the inverse block cipher D. -/
def cbcDec (D : List Nat → List Nat) : List Nat → List (List Nat) → List (List Nat)
  | _, [] => []
  | iv, cblk :: cs => xorBytes iv (D cblk) :: cbcDec D cblk cs

/-- Model of oscrypto's symmetric.aes_cbc_pkcs7_encrypt: pad, run CBC with
the supplied IV, and return the IV together with the ciphertext. -/
def aes_cbc_pkcs7_encrypt (E : List Nat → List Nat → List Nat)
    (key plaintext iv : List Nat) : List Nat × List Nat :=
  (iv, (cbcEnc (E key) iv (toBlocks (pkcs7Pad plaintext))).flatten)

/-- Model of oscrypto's symmetric.aes_cbc_pkcs7_decrypt: run CBC in reverse
and strip the PKCS#7 padding. -/
def aes_cbc_pkcs7_decrypt (D : List Nat → List Nat → List Nat)
    (key ciphertext iv : List Nat) : List Nat :=
  pkcs7Unpad ((cbcDec (D key) iv (toBlocks ciphertext)).flatten)

/-- AESCryptFilterMixin.encrypt (crypt.py lines 1019-1036): encrypt with a
fresh 16-byte IV (passed as a parameter here, drawn from secrets.token_bytes
in the code) and prepend the IV to the ciphertext. -/
def AESCryptFilterMixin.encrypt (E : List Nat → List Nat → List Nat)
    (key plaintext iv : List Nat) : List Nat :=
  let ivAndCiphertext := aes_cbc_pkcs7_encrypt E key plaintext iv
  ivAndCiphertext.1 ++ ivAndCiphertext.2

/-- AESCryptFilterMixin.decrypt (crypt.py lines 1038-1053): split off the
leading 16-byte IV and decrypt the rest. -/
def AESCryptFilterMixin.decrypt (D : List Nat → List Nat → List Nat)
    (key ciphertext : List Nat) : List Nat :=
  aes_cbc_pkcs7_decrypt D key (ciphertext.drop 16) (ciphertext.take 16)

/-- CryptFilter.shared_key (crypt.py lines 735-747) as a state transition:
given the cached key and the auth-failed flag, produce the returned key, the
new cached key, and whether derive_shared_encryption_key was invoked. -/
def CryptFilter.shared_key_access (shared_key : Option (List Nat)) (auth_failed : Bool)
    (derive_shared_encryption_key : Except PdfError (List Nat)) :
    Except PdfError (List Nat × Option (List Nat) × Bool) :=
  match shared_key with
  | some key => .ok (key, some key, false)
  | none =>
    if auth_failed then .error .authenticationFailed
    else
      match derive_shared_encryption_key with
      | .ok key => .ok (key, some key, true)
      | .error e => .error e

/-- The two one-shot transient fields of a StandardSecurityHandler. -/
structure HandlerAuthState where
  shared_key : Option (List Nat)
  auth_failed : Bool
deriving DecidableEq

/-- Tail of StandardSecurityHandler.authenticate (crypt.py lines 1604-1607):
record the key of a successful attempt, or latch the failed flag. -/
def StandardSecurityHandler.record_auth_result (st : HandlerAuthState)
    (key : Option (List Nat)) : HandlerAuthState :=
  match key with
  | some k => { st with shared_key := some k }
  | none => { st with auth_failed := true }

/-- StandardSecurityHandler.get_file_encryption_key (crypt.py lines
1652-1659). -/
def StandardSecurityHandler.get_file_encryption_key (st : HandlerAuthState) :
    Except PdfError (List Nat) :=
  match st.shared_key with
  | some k => .ok k
  | none => .error (if st.auth_failed then .authenticationFailed else .noKeyAvailable)

/-- Degenerate instantiation of the R6 crypto primitives, used to exercise
the R6 theorems on concrete data: the hashes return constant digests of the
right lengths and the cipher returns a constant block. -/
def trivialR6Crypto : R6Crypto where
  sha256 := fun _ => List.replicate 32 0
  sha384 := fun _ => List.replicate 48 0
  sha512 := fun _ => List.replicate 64 0
  aes_cbc_no_padding_encrypt := fun _ _ _ => List.replicate 16 7
  aes_cbc_no_padding_decrypt := fun _ _ _ => List.replicate 16 0

/-- Concrete R6 handler whose stored hashes do not match what
trivialR6Crypto computes, so both password checks fail. -/
def mismatchR6Handler : StdSecHandlerR6 where
  odata := List.replicate 48 1
  udata := List.replicate 48 1
  oeseed := List.replicate 32 2
  ueseed := List.replicate 32 2
  encrypted_perms := List.replicate 16 3
  perms := -44
  encrypt_metadata := true

end Crypt

end PdfUtils

-- ===== definitions continue above; theorems start below =====

namespace PdfUtils

open Reader

theorem find?_first_min {α : Type} (key : α → Nat) (p : α → Bool) :
    ∀ (l : List α), l.Pairwise (fun a b => key a ≤ key b) →
    ∀ e, l.find? p = some e →
      p e = true ∧ e ∈ l ∧ ∀ e' ∈ l, p e' = true → key e ≤ key e' := by
  intro l
  induction l with
  | nil => intro _ e h; simp at h
  | cons hd tl ih =>
    intro hpw e hfind
    rw [List.pairwise_cons] at hpw
    by_cases hp : p hd = true
    · simp only [List.find?, hp, Option.some.injEq] at hfind
      subst hfind
      refine ⟨hp, List.mem_cons_self _ _, ?_⟩
      intro e' he' _
      rcases List.mem_cons.mp he' with h | h
      · subst h; exact le_refl _
      · exact hpw.1 e' h
    · simp only [List.find?, Bool.not_eq_true] at hp
      simp only [List.find?, hp] at hfind
      obtain ⟨h1, h2, h3⟩ := ih hpw.2 e hfind
      refine ⟨h1, List.mem_cons_of_mem _ h2, ?_⟩
      intro e' he' hpe'
      rcases List.mem_cons.mp he' with h | h
      · subst h; rw [hp] at hpe'; cases hpe'
      · exact h3 e' h hpe'

theorem historical_cond_equiv (total revision sec : Nat) :
    decide ((revision : Int) ≥ ((total : Int) - 1) - (sec : Int))
      = decide (total - 1 - revision ≤ sec) := by
  rw [decide_eq_decide]
  omega

/-- C1: for every object reference recorded in the xref history and every
revision r, get_historical_ref returns exactly the first entry of the
newest-first history whose internal section index is at least
total - 1 - r (which, when the history is ordered newest-first, is the most
recent write in a section at or before revision r), and raises a read error
when no such entry exists. -/
theorem get_historical_ref_spec (cache : Reader.XRefCache)
    (idnum generation revision : Nat)
    (hsorted : ((alookup (generation, idnum) cache.history).getD []).Pairwise
      (fun a b => a.1 ≤ b.1)) :
    (cache.get_historical_ref idnum generation revision =
      match ((alookup (generation, idnum) cache.history).getD []).find?
          (fun e => decide (cache.xref_sections - 1 - revision ≤ e.1)) with
      | some e => Except.ok e.2
      | none => Except.error (.notFoundInHistory idnum generation revision)) ∧
    (∀ m, cache.get_historical_ref idnum generation revision = Except.ok m →
      ∃ sec, (sec, m) ∈ (alookup (generation, idnum) cache.history).getD [] ∧
        cache.xref_sections - 1 - revision ≤ sec ∧
        ∀ e ∈ (alookup (generation, idnum) cache.history).getD [],
          cache.xref_sections - 1 - revision ≤ e.1 → sec ≤ e.1) ∧
    ((∀ e ∈ (alookup (generation, idnum) cache.history).getD [],
        e.1 < cache.xref_sections - 1 - revision) →
      cache.get_historical_ref idnum generation revision =
        Except.error (.notFoundInHistory idnum generation revision)) := by
  have hcongr : ((alookup (generation, idnum) cache.history).getD []).find?
        (fun e => decide ((revision : Int) ≥
          ((cache.xref_sections : Int) - 1) - (e.1 : Int)))
      = ((alookup (generation, idnum) cache.history).getD []).find?
        (fun e => decide (cache.xref_sections - 1 - revision ≤ e.1)) :=
    find?_congr _ _ _ (fun e => historical_cond_equiv cache.xref_sections revision e.1)
  have heq : cache.get_historical_ref idnum generation revision =
      match ((alookup (generation, idnum) cache.history).getD []).find?
          (fun e => decide (cache.xref_sections - 1 - revision ≤ e.1)) with
      | some e => Except.ok e.2
      | none => Except.error (.notFoundInHistory idnum generation revision) := by
    unfold Reader.XRefCache.get_historical_ref
    dsimp only
    rw [hcongr]
  refine ⟨heq, ?_, ?_⟩
  · intro m hm
    rw [heq] at hm
    rcases hfind : ((alookup (generation, idnum) cache.history).getD []).find?
        (fun e => decide (cache.xref_sections - 1 - revision ≤ e.1)) with _ | e
    · rw [hfind] at hm; cases hm
    · rw [hfind] at hm
      obtain ⟨h1, h2, h3⟩ := find?_first_min (fun e => e.1) _ _ hsorted e hfind
      cases hm
      refine ⟨e.1, ?_, by simpa using h1, ?_⟩
      · simpa using h2
      · intro e' he' hle
        exact h3 e' he' (by simpa using hle)
  · intro hall
    rw [heq]
    have : ((alookup (generation, idnum) cache.history).getD []).find?
        (fun e => decide (cache.xref_sections - 1 - revision ≤ e.1)) = none := by
      rw [List.find?_eq_none]
      intro e he
      simpa using Nat.not_le.mpr (hall e he)
    rw [this]

/-- Witness for C1: on the sample three-revision cache, the historical lookup
of object (5, 0) at revision 1 skips the newest write (internal section 0)
and returns the marker written in the oldest section (internal section 2). -/
theorem get_historical_ref_spec_witness :
    Reader.XRefCache.get_historical_ref Reader.sampleHistCache 5 0 1 =
      Except.ok (Reader.Marker.offset 100) := by
  have h := (get_historical_ref_spec Reader.sampleHistCache 5 0 1 (by decide)).1
  rw [h]
  rfl

theorem put_ref_expected {c c' : Reader.XRefCache} {i g s : Nat}
    (hg : 0 < g) (h : c.put_ref i g s = .ok c') :
    alookup i c'.previous_expected_free = some g := by
  unfold Reader.XRefCache.put_ref at h
  by_cases h1 : alookup i c.previous_expected_free = none
  · rw [if_neg (by simp [h1])] at h
    by_cases h2 : g > 0xffff
    · rw [if_pos h2] at h
      exact Except.noConfusion h
    · rw [if_neg h2, if_pos hg] at h
      dsimp only at h
      split at h <;> (injection h with h; subst h; exact alookup_aupdate_self _ _ _)
  · rw [if_pos h1] at h
    exact Except.noConfusion h

theorem put_ref_error_of_expected {c : Reader.XRefCache} {i g s v : Nat}
    (h : alookup i c.previous_expected_free = some v) :
    c.put_ref i g s = .error (.neverFreedButReused g i) := by
  unfold Reader.XRefCache.put_ref
  rw [if_pos (by simp [h])]

theorem put_ref_preserves_expected {c c' : Reader.XRefCache} {i g s j : Nat}
    (hne : i ≠ j) (h : c.put_ref i g s = .ok c') :
    alookup j c'.previous_expected_free = alookup j c.previous_expected_free := by
  unfold Reader.XRefCache.put_ref at h
  by_cases h1 : alookup i c.previous_expected_free = none
  · rw [if_neg (by simp [h1])] at h
    by_cases h2 : g > 0xffff
    · rw [if_pos h2] at h
      exact Except.noConfusion h
    · rw [if_neg h2] at h
      by_cases h3 : g > 0
      · rw [if_pos h3] at h
        dsimp only at h
        split at h <;> (injection h with h; subst h; exact alookup_aupdate_ne _ _ hne)
      · rw [if_neg h3] at h
        dsimp only at h
        split at h <;> (injection h with h; subst h; rfl)
  · rw [if_pos h1] at h
    exact Except.noConfusion h

theorem free_ref_preserves_expected {c c' : Reader.XRefCache} {i g j : Nat}
    (hne : i ≠ j) (h : c.free_ref i g = .ok c') :
    alookup j c'.previous_expected_free = alookup j c.previous_expected_free := by
  unfold Reader.XRefCache.free_ref at h
  by_cases h0 : i = 0
  · rw [if_pos h0] at h
    injection h with h
    subst h
    rfl
  · rw [if_neg h0] at h
    dsimp only at h
    split at h
    · exact Except.noConfusion h
    · rename_i c2 hgen
      have hc2 : c2.previous_expected_free = c.previous_expected_free := by
        split at hgen
        · injection hgen with hgen; subst hgen; rfl
        · split at hgen
          · exact Except.noConfusion hgen
          · injection hgen with hgen; subst hgen; rfl
      split at h
      · injection h with h
        subst h
        split <;> (show alookup j c2.previous_expected_free = _; rw [hc2])
      · split at h
        · exact Except.noConfusion h
        · injection h with h
          subst h
          show alookup j (aerase i _) = _
          rw [alookup_aerase_ne _ hne]
          split <;> (show alookup j c2.previous_expected_free = _; rw [hc2])

theorem put_obj_stream_ref_expected (c : Reader.XRefCache) (i n ix : Nat) :
    (c.put_obj_stream_ref i n ix).previous_expected_free
      = c.previous_expected_free := by
  unfold Reader.XRefCache.put_obj_stream_ref
  dsimp only
  split <;> rfl

theorem next_section_expected (c : Reader.XRefCache) :
    c.next_section.previous_expected_free = c.previous_expected_free := rfl

theorem processEvents_preserves_expected {j g : Nat} :
    ∀ (events : List Reader.XRefEvent) (c c' : Reader.XRefCache),
    Reader.processEvents c events = .ok c' →
    (∀ gg, Reader.XRefEvent.freeRef j gg ∉ events) →
    alookup j c.previous_expected_free = some g →
    alookup j c'.previous_expected_free = some g := by
  intro events
  induction events with
  | nil =>
    intro c c' h _ hj
    unfold Reader.processEvents at h
    cases h
    exact hj
  | cons e rest ih =>
    intro c c' h hnofree hj
    unfold Reader.processEvents at h
    rcases happ : Reader.applyEvent c e with err | cnext
    · rw [happ] at h; cases h
    · rw [happ] at h
      have hnofree' : ∀ gg, Reader.XRefEvent.freeRef j gg ∉ rest := by
        intro gg hmem
        exact hnofree gg (List.mem_cons_of_mem _ hmem)
      refine ih cnext c' h hnofree' ?_
      cases e with
      | putRef i gg s =>
        by_cases hij : i = j
        · subst hij
          rw [show Reader.applyEvent c (.putRef i gg s) = c.put_ref i gg s from rfl,
            put_ref_error_of_expected hj] at happ
          cases happ
        · rw [put_ref_preserves_expected hij happ]
          exact hj
      | freeRef i gg =>
        have hij : i ≠ j := by
          intro hcontra
          subst hcontra
          exact hnofree gg (List.mem_cons_self _ _)
        rw [free_ref_preserves_expected hij happ]
        exact hj
      | putObjStreamRef i n ix =>
        cases happ
        rw [put_obj_stream_ref_expected]
        exact hj
      | nextSection =>
        cases happ
        rw [next_section_expected]
        exact hj

/-- C6: an in-use entry recorded with generation > 0 registers an expectation
of a matching free event in an older section; if no free event for that
object follows during the rest of the parse, the final check of _read_xrefs
fails with a read error whose orphan list names the object. -/
theorem orphaned_expected_free_fatal {cache c1 c2 : Reader.XRefCache}
    {idnum generation start : Nat} {events : List Reader.XRefEvent}
    (hg : 0 < generation)
    (hput : cache.put_ref idnum generation start = .ok c1)
    (hrest : Reader.processEvents c1 events = .ok c2)
    (hnofree : ∀ g, Reader.XRefEvent.freeRef idnum g ∉ events) :
    alookup idnum c2.previous_expected_free = some generation ∧
    Reader.orphanCheck c2 =
      Except.error (.orphanedObjects c2.previous_expected_free) ∧
    (idnum, generation) ∈ c2.previous_expected_free := by
  have h1 := put_ref_expected hg hput
  have h2 := processEvents_preserves_expected events c1 c2 hrest hnofree h1
  refine ⟨h2, ?_, alookup_mem h2⟩
  unfold Reader.orphanCheck
  rw [if_neg (alookup_ne_none_of_some h2)]

/-- Witness for C6: writing object 3 with generation 1 into a fresh cache and
closing the section leaves the expectation unmatched, so the final orphan
check raises the fatal error naming object 3 generation 1. -/
theorem orphaned_expected_free_fatal_witness :
    alookup 3 Reader.sampleCacheFinal.previous_expected_free = some 1 ∧
    Reader.orphanCheck Reader.sampleCacheFinal =
      Except.error (.orphanedObjects Reader.sampleCacheFinal.previous_expected_free) ∧
    (3, 1) ∈ Reader.sampleCacheFinal.previous_expected_free := by
  refine @orphaned_expected_free_fatal Reader.XRefCache.init
    Reader.sampleCacheAfterPut Reader.sampleCacheFinal 3 1 100
    [Reader.XRefEvent.nextSection] (by decide) (by rfl) (by rfl) ?_
  intro g hmem
  simp at hmem

/-- C10: freeing object number 0 (the free-list head that every xref table
contains) is a no-op: the call returns immediately and the whole cache state
is unchanged, with no consistency check performed. -/
theorem free_ref_zero_id_noop (cache : Reader.XRefCache) (next_generation : Nat) :
    cache.free_ref 0 next_generation = Except.ok cache := rfl

/-- C2: the legacy file key (algorithm 3.2) is MD5 over the padded password,
the /O entry, the permissions packed as little-endian signed 32-bit, the
first ID element, and four 0xFF bytes exactly when rev >= 4 and metadata is
unencrypted; for rev >= 3 the digest is re-hashed 50 times over its first
keylen bytes, and the first keylen bytes of the final digest are returned. -/
theorem derive_legacy_file_key_spec (md5 : List Nat → List Nat)
    (password owner_entry id1_entry : List Nat) (rev keylen : Nat)
    (p_entry : Int) (metadata_encrypt : Bool)
    (_hrev : rev = 2 ∨ rev = 3 ∨ rev = 4) :
    Crypt._derive_legacy_file_key md5 password rev keylen owner_entry p_entry
        id1_entry metadata_encrypt =
      (if 3 ≤ rev then
        (fun digest => md5 (digest.take keylen))^[50]
          (md5 ((password ++ Crypt._encryption_padding).take 32 ++ owner_entry
            ++ Crypt.packLEi32 p_entry ++ id1_entry
            ++ (if 4 ≤ rev ∧ metadata_encrypt = false then
                  [0xff, 0xff, 0xff, 0xff] else [])))
       else
        md5 ((password ++ Crypt._encryption_padding).take 32 ++ owner_entry
          ++ Crypt.packLEi32 p_entry ++ id1_entry
          ++ (if 4 ≤ rev ∧ metadata_encrypt = false then
                [0xff, 0xff, 0xff, 0xff] else []))).take keylen := by
  clear _hrev
  unfold Crypt._derive_legacy_file_key
  dsimp only
  by_cases h3 : 3 ≤ rev <;>
    by_cases h4 : 4 ≤ rev ∧ metadata_encrypt = false <;>
      simp [h3, h4, List.append_assoc]

/-- Witness for C2 at revision 2 with a constant hash function. -/
theorem derive_legacy_file_key_spec_witness :
    Crypt._derive_legacy_file_key (fun _ => [0]) [] 2 5 [] 0 [] true = [0] := by
  have h := derive_legacy_file_key_spec (fun _ => [0]) [] [] [] 2 5 0 true (Or.inl rfl)
  rw [h]
  rfl

theorem getLastD_lt_256 : ∀ (l : List Nat) (d : Nat),
    (∀ b ∈ l, b < 256) → d < 256 → l.getLastD d < 256 := by
  intro l
  induction l with
  | nil => intro d _ hd; simpa using hd
  | cons a t ih =>
    intro d hl _
    rw [List.getLastD_cons]
    exact ih a (fun b hb => hl b (List.mem_cons_of_mem _ hb)) (hl a (List.mem_cons_self _ _))

theorem r6Step_round (C : Crypt.R6Crypto) (pw_bytes uB : List Nat)
    (st : Crypt.R6LoopState) :
    (Crypt.r6Step C pw_bytes uB st).round_no = st.round_no + 1 := rfl

theorem r6Step_byte (C : Crypt.R6Crypto) (pw_bytes uB : List Nat)
    (st : Crypt.R6LoopState)
    (hbytes : ∀ key data iv b, b ∈ C.aes_cbc_no_padding_encrypt key data iv → b < 256) :
    (Crypt.r6Step C pw_bytes uB st).last_byte_val < 256 := by
  unfold Crypt.r6Step
  dsimp only
  exact getLastD_lt_256 _ 0 (fun b hb => hbytes _ _ _ b hb) (by omega)

theorem r6Loop_exit (C : Crypt.R6Crypto) (pw_bytes uB : List Nat)
    (hbytes : ∀ key data iv b, b ∈ C.aes_cbc_no_padding_encrypt key data iv → b < 256) :
    ∀ (fuel : Nat) (st : Crypt.R6LoopState), 300 ≤ st.round_no + fuel →
    st.last_byte_val < 256 →
    Crypt.r6Continue (Crypt.r6Loop C pw_bytes uB fuel st) = false := by
  intro fuel
  induction fuel with
  | zero =>
    intro st h hb
    show Crypt.r6Continue st = false
    unfold Crypt.r6Continue
    simp only [Bool.or_eq_false_iff, decide_eq_false_iff_not, not_lt, not_lt]
    constructor
    · omega
    · omega
  | succ n ih =>
    intro st h hb
    show Crypt.r6Continue (if Crypt.r6Continue st then
        Crypt.r6Loop C pw_bytes uB n (Crypt.r6Step C pw_bytes uB st) else st) = false
    by_cases hc : Crypt.r6Continue st = true
    · rw [if_pos hc]
      exact ih _ (by rw [r6Step_round]; omega) (r6Step_byte C pw_bytes uB st hbytes)
    · rw [if_neg hc]
      simpa using hc

theorem r6Loop_of_not_continue (C : Crypt.R6Crypto) (pw_bytes uB : List Nat)
    (st : Crypt.R6LoopState) (h : Crypt.r6Continue st = false) :
    ∀ fuel, Crypt.r6Loop C pw_bytes uB fuel st = st := by
  intro fuel
  cases fuel with
  | zero => rfl
  | succ n =>
    show (if Crypt.r6Continue st then _ else st) = st
    rw [if_neg (by simp [h])]

theorem r6Loop_fuel_mono (C : Crypt.R6Crypto) (pw_bytes uB : List Nat) :
    ∀ (fuel1 fuel2 : Nat) (st : Crypt.R6LoopState), fuel1 ≤ fuel2 →
    Crypt.r6Continue (Crypt.r6Loop C pw_bytes uB fuel1 st) = false →
    Crypt.r6Loop C pw_bytes uB fuel2 st = Crypt.r6Loop C pw_bytes uB fuel1 st := by
  intro fuel1
  induction fuel1 with
  | zero =>
    intro fuel2 st _ hstop
    exact r6Loop_of_not_continue C pw_bytes uB st hstop fuel2
  | succ n ih =>
    intro fuel2 st hle hstop
    cases fuel2 with
    | zero => omega
    | succ m =>
      by_cases hc : Crypt.r6Continue st = true
      · rw [show Crypt.r6Loop C pw_bytes uB (m + 1) st
            = if Crypt.r6Continue st then
                Crypt.r6Loop C pw_bytes uB m (Crypt.r6Step C pw_bytes uB st)
              else st from rfl,
          if_pos hc]
        rw [show Crypt.r6Loop C pw_bytes uB (n + 1) st
            = if Crypt.r6Continue st then
                Crypt.r6Loop C pw_bytes uB n (Crypt.r6Step C pw_bytes uB st)
              else st from rfl,
          if_pos hc] at hstop ⊢
        exact ih m _ (by omega) hstop
      · rw [show Crypt.r6Loop C pw_bytes uB (m + 1) st
            = if Crypt.r6Continue st then
                Crypt.r6Loop C pw_bytes uB m (Crypt.r6Step C pw_bytes uB st)
              else st from rfl,
          if_neg hc]
        rw [show Crypt.r6Loop C pw_bytes uB (n + 1) st
            = if Crypt.r6Continue st then
                Crypt.r6Loop C pw_bytes uB n (Crypt.r6Step C pw_bytes uB st)
              else st from rfl,
          if_neg hc]

/-- C5: with byte-valued cipher output, the R6 hash loop leaves its while
condition (round < 64 or E-last-byte > round - 32) within 300 iterations: at
the final state the round count is at least 64 and the last byte of E is at
most round - 32, any fuel of at least 300 computes the same final state (so
the bounded unfolding agrees with the unbounded Python loop), and the
function returns the first 32 bytes of the final digest. -/
theorem r6_hash_algo_terminates (C : Crypt.R6Crypto)
    (pw_bytes current_salt : List Nat) (u_entry : Option (List Nat))
    (hbytes : ∀ key data iv b, b ∈ C.aes_cbc_no_padding_encrypt key data iv → b < 256) :
    Crypt.r6Continue (Crypt.r6Loop C pw_bytes (u_entry.getD []) 300
      (Crypt.r6InitState C pw_bytes current_salt u_entry)) = false ∧
    64 ≤ (Crypt.r6Loop C pw_bytes (u_entry.getD []) 300
      (Crypt.r6InitState C pw_bytes current_salt u_entry)).round_no ∧
    ((Crypt.r6Loop C pw_bytes (u_entry.getD []) 300
        (Crypt.r6InitState C pw_bytes current_salt u_entry)).last_byte_val : Int)
      ≤ ((Crypt.r6Loop C pw_bytes (u_entry.getD []) 300
        (Crypt.r6InitState C pw_bytes current_salt u_entry)).round_no : Int) - 32 ∧
    (∀ fuel, 300 ≤ fuel →
      Crypt.r6Loop C pw_bytes (u_entry.getD []) fuel
          (Crypt.r6InitState C pw_bytes current_salt u_entry)
        = Crypt.r6Loop C pw_bytes (u_entry.getD []) 300
          (Crypt.r6InitState C pw_bytes current_salt u_entry)) ∧
    Crypt._r6_hash_algo C pw_bytes current_salt u_entry
      = (Crypt.r6Loop C pw_bytes (u_entry.getD []) 300
        (Crypt.r6InitState C pw_bytes current_salt u_entry)).k.take 32 := by
  have h1 := r6Loop_exit C pw_bytes (u_entry.getD []) hbytes 300
    (Crypt.r6InitState C pw_bytes current_salt u_entry) (by simp [Crypt.r6InitState])
    (by simp [Crypt.r6InitState])
  refine ⟨h1, ?_, ?_, ?_, rfl⟩
  · revert h1
    unfold Crypt.r6Continue
    simp only [Bool.or_eq_false_iff, decide_eq_false_iff_not, not_lt]
    intro h1
    exact h1.1
  · revert h1
    unfold Crypt.r6Continue
    simp only [Bool.or_eq_false_iff, decide_eq_false_iff_not, not_lt]
    intro h1
    exact h1.2
  · intro fuel hf
    exact r6Loop_fuel_mono C pw_bytes (u_entry.getD []) 300 fuel _ hf h1

/-- Witness for C5: the loop settles for the degenerate crypto instance, an
empty password, an 8-byte salt and no /U entry. -/
theorem r6_hash_algo_terminates_witness :
    Crypt.r6Continue (Crypt.r6Loop Crypt.trivialR6Crypto [] [] 300
      (Crypt.r6InitState Crypt.trivialR6Crypto [] [0, 0, 0, 0, 0, 0, 0, 0] none)) = false ∧
    64 ≤ (Crypt.r6Loop Crypt.trivialR6Crypto [] [] 300
      (Crypt.r6InitState Crypt.trivialR6Crypto [] [0, 0, 0, 0, 0, 0, 0, 0] none)).round_no ∧
    ((Crypt.r6Loop Crypt.trivialR6Crypto [] [] 300
        (Crypt.r6InitState Crypt.trivialR6Crypto [] [0, 0, 0, 0, 0, 0, 0, 0] none)).last_byte_val : Int)
      ≤ ((Crypt.r6Loop Crypt.trivialR6Crypto [] [] 300
        (Crypt.r6InitState Crypt.trivialR6Crypto [] [0, 0, 0, 0, 0, 0, 0, 0] none)).round_no : Int) - 32 ∧
    (∀ fuel, 300 ≤ fuel →
      Crypt.r6Loop Crypt.trivialR6Crypto [] [] fuel
          (Crypt.r6InitState Crypt.trivialR6Crypto [] [0, 0, 0, 0, 0, 0, 0, 0] none)
        = Crypt.r6Loop Crypt.trivialR6Crypto [] [] 300
          (Crypt.r6InitState Crypt.trivialR6Crypto [] [0, 0, 0, 0, 0, 0, 0, 0] none)) ∧
    Crypt._r6_hash_algo Crypt.trivialR6Crypto [] [0, 0, 0, 0, 0, 0, 0, 0] none
      = (Crypt.r6Loop Crypt.trivialR6Crypto [] [] 300
        (Crypt.r6InitState Crypt.trivialR6Crypto [] [0, 0, 0, 0, 0, 0, 0, 0] none)).k.take 32 :=
  r6_hash_algo_terminates Crypt.trivialR6Crypto [] [0, 0, 0, 0, 0, 0, 0, 0] none
    (by
      intro key data iv b hb
      have hbeq := List.eq_of_mem_replicate hb
      omega)

theorem r6_perms_ok_iff (h : Crypt.StdSecHandlerR6) (dec : List Nat) :
    Crypt.r6_perms_ok h dec = true ↔ Crypt.r6PermsSpecOk h dec := by
  unfold Crypt.r6_perms_ok Crypt.r6PermsSpecOk
  dsimp only
  by_cases h54 : dec[8]?.getD 0 = 84
  · cases hmeta : h.encrypt_metadata <;> simp [h54, hmeta]
  · by_cases h46 : dec[8]?.getD 0 = 70
    · cases hmeta : h.encrypt_metadata <;> simp [h54, h46, hmeta]
    · cases hmeta : h.encrypt_metadata <;> simp [h54, h46, hmeta]

/-- C3: R6 authentication first tries the owner entry (hash with the /O
validation salt and the full /U entry) and on match returns OWNER with the
key decrypted from /OE; otherwise tries the user entry and on match returns
USER with the key decrypted from /UE; otherwise it returns FAILED without
touching /Perms.  Whenever a match succeeds, the 16-byte /Perms value is
AES-CBC-decrypted with the recovered key and IV 0 and must satisfy the
plausibility conditions (bytes 9..11 "adb", little-endian signed permission
flags, metadata byte); any mismatch is a hard error instead of FAILED. -/
theorem authenticate_r6_spec (C : Crypt.R6Crypto) (h : Crypt.StdSecHandlerR6)
    (password : List Nat) :
    (Crypt._authenticate_r6 C h password = .ok (.FAILED, none) ↔
      Crypt._r6_password_authenticate C (Crypt._r6_normalise_pw password)
          (Crypt.R6KeyEntry.from_bytes h.odata) (some h.udata) = false ∧
      Crypt._r6_password_authenticate C (Crypt._r6_normalise_pw password)
          (Crypt.R6KeyEntry.from_bytes h.udata) none = false) ∧
    (Crypt._r6_password_authenticate C (Crypt._r6_normalise_pw password)
        (Crypt.R6KeyEntry.from_bytes h.odata) (some h.udata) = true →
      (Crypt.r6PermsSpecOk h (C.aes_cbc_no_padding_decrypt
          (Crypt._r6_derive_file_key C (Crypt._r6_normalise_pw password)
            (Crypt.R6KeyEntry.from_bytes h.odata) h.oeseed (some h.udata))
          h.encrypted_perms (List.replicate 16 0)) →
        Crypt._authenticate_r6 C h password = .ok (.OWNER,
          some (Crypt._r6_derive_file_key C (Crypt._r6_normalise_pw password)
            (Crypt.R6KeyEntry.from_bytes h.odata) h.oeseed (some h.udata)))) ∧
      (¬ Crypt.r6PermsSpecOk h (C.aes_cbc_no_padding_decrypt
          (Crypt._r6_derive_file_key C (Crypt._r6_normalise_pw password)
            (Crypt.R6KeyEntry.from_bytes h.odata) h.oeseed (some h.udata))
          h.encrypted_perms (List.replicate 16 0)) →
        Crypt._authenticate_r6 C h password = .error .permsTamperError)) ∧
    (Crypt._r6_password_authenticate C (Crypt._r6_normalise_pw password)
        (Crypt.R6KeyEntry.from_bytes h.odata) (some h.udata) = false →
      Crypt._r6_password_authenticate C (Crypt._r6_normalise_pw password)
          (Crypt.R6KeyEntry.from_bytes h.udata) none = true →
      (Crypt.r6PermsSpecOk h (C.aes_cbc_no_padding_decrypt
          (Crypt._r6_derive_file_key C (Crypt._r6_normalise_pw password)
            (Crypt.R6KeyEntry.from_bytes h.udata) h.ueseed none)
          h.encrypted_perms (List.replicate 16 0)) →
        Crypt._authenticate_r6 C h password = .ok (.USER,
          some (Crypt._r6_derive_file_key C (Crypt._r6_normalise_pw password)
            (Crypt.R6KeyEntry.from_bytes h.udata) h.ueseed none))) ∧
      (¬ Crypt.r6PermsSpecOk h (C.aes_cbc_no_padding_decrypt
          (Crypt._r6_derive_file_key C (Crypt._r6_normalise_pw password)
            (Crypt.R6KeyEntry.from_bytes h.udata) h.ueseed none)
          h.encrypted_perms (List.replicate 16 0)) →
        Crypt._authenticate_r6 C h password = .error .permsTamperError)) := by
  unfold Crypt._authenticate_r6
  dsimp only
  by_cases hO : Crypt._r6_password_authenticate C (Crypt._r6_normalise_pw password)
      (Crypt.R6KeyEntry.from_bytes h.odata) (some h.udata) = true
  · rw [if_pos hO]
    dsimp only
    refine ⟨?_, fun _ => ⟨?_, ?_⟩, fun hcontra => absurd hO (by simp [hcontra])⟩
    · constructor
      · intro heq
        split at heq
        · cases heq
        · cases heq
      · rintro ⟨hOfalse, _⟩
        rw [hO] at hOfalse
        cases hOfalse
    · intro hperms
      rw [if_pos ((r6_perms_ok_iff h _).mpr hperms)]
    · intro hperms
      rw [if_neg (fun hcontra => hperms ((r6_perms_ok_iff h _).mp hcontra))]
  · rw [if_neg hO]
    have hOfalse : Crypt._r6_password_authenticate C (Crypt._r6_normalise_pw password)
        (Crypt.R6KeyEntry.from_bytes h.odata) (some h.udata) = false := by
      simpa using hO
    by_cases hU : Crypt._r6_password_authenticate C (Crypt._r6_normalise_pw password)
        (Crypt.R6KeyEntry.from_bytes h.udata) none = true
    · rw [if_pos hU]
      dsimp only
      refine ⟨?_, fun hcontra => absurd hcontra (by simp [hOfalse]), fun _ _ => ⟨?_, ?_⟩⟩
      · constructor
        · intro heq
          split at heq
          · cases heq
          · cases heq
        · rintro ⟨_, hUfalse⟩
          rw [hU] at hUfalse
          cases hUfalse
      · intro hperms
        rw [if_pos ((r6_perms_ok_iff h _).mpr hperms)]
      · intro hperms
        rw [if_neg (fun hcontra => hperms ((r6_perms_ok_iff h _).mp hcontra))]
    · rw [if_neg hU]
      have hUfalse : Crypt._r6_password_authenticate C (Crypt._r6_normalise_pw password)
          (Crypt.R6KeyEntry.from_bytes h.udata) none = false := by
        simpa using hU
      exact ⟨by simp [hOfalse, hUfalse],
        fun hcontra => absurd hcontra (by simp [hOfalse]),
        fun _ hcontra => absurd hcontra (by simp [hUfalse])⟩

/-- Witness for C3: with the degenerate crypto instance and a handler whose
stored hashes do not match, authentication returns FAILED with no key. -/
theorem authenticate_r6_spec_witness :
    Crypt._authenticate_r6 Crypt.trivialR6Crypto Crypt.mismatchR6Handler []
      = .ok (.FAILED, none) :=
  (authenticate_r6_spec Crypt.trivialR6Crypto Crypt.mismatchR6Handler []).1.mpr
    ⟨by decide, by decide⟩


theorem xorBytes_length (a b : List Nat) :
    (Crypt.xorBytes a b).length = min a.length b.length := by
  simp [Crypt.xorBytes]

theorem xorBytes_cancel : ∀ (a b : List Nat), a.length = b.length →
    Crypt.xorBytes a (Crypt.xorBytes a b) = b := by
  intro a
  induction a with
  | nil =>
    intro b hb
    cases b with
    | nil => rfl
    | cons y ys => simp at hb
  | cons x xs ih =>
    intro b hb
    cases b with
    | nil => simp at hb
    | cons y ys =>
      show (x ^^^ (x ^^^ y)) :: Crypt.xorBytes xs (Crypt.xorBytes xs ys) = y :: ys
      rw [← Nat.xor_assoc, Nat.xor_self, Nat.zero_xor, ih ys (by simpa using hb)]

theorem toBlocks_append16 (b rest : List Nat) (hb : b.length = 16) :
    Crypt.toBlocks (b ++ rest) = b :: Crypt.toBlocks rest := by
  cases b with
  | nil => simp at hb
  | cons a t =>
    have ht : t.length = 15 := by simpa using hb
    show Crypt.toBlocks (a :: (t ++ rest)) = _
    rw [Crypt.toBlocks]
    rw [show (t ++ rest).take 15 = t by rw [← ht]; exact List.take_left t rest]
    rw [show (t ++ rest).drop 15 = rest by rw [← ht]; exact List.drop_left t rest]

theorem flatten_toBlocks_bounded : ∀ (n : Nat) (l : List Nat), l.length ≤ n →
    (Crypt.toBlocks l).flatten = l := by
  intro n
  induction n with
  | zero =>
    intro l h
    cases l with
    | nil => simp [Crypt.toBlocks]
    | cons a rest => simp at h
  | succ n ih =>
    intro l h
    cases l with
    | nil => simp [Crypt.toBlocks]
    | cons a rest =>
      rw [Crypt.toBlocks, List.flatten_cons,
        ih (rest.drop 15) (by simp at h ⊢; omega), List.cons_append,
        List.take_append_drop]

theorem flatten_toBlocks (l : List Nat) : (Crypt.toBlocks l).flatten = l :=
  flatten_toBlocks_bounded l.length l le_rfl

theorem toBlocks_all16 : ∀ (n : Nat) (l : List Nat), l.length ≤ n →
    l.length % 16 = 0 → ∀ b ∈ Crypt.toBlocks l, b.length = 16 := by
  intro n
  induction n with
  | zero =>
    intro l h _ b hb
    cases l with
    | nil => simp [Crypt.toBlocks] at hb
    | cons a rest => simp at h
  | succ n ih =>
    intro l h hmod b hb
    cases l with
    | nil => simp [Crypt.toBlocks] at hb
    | cons a rest =>
      have hlen : rest.length % 16 = 15 := by
        simp at hmod
        omega
      have hrest : 15 ≤ rest.length := by omega
      rw [Crypt.toBlocks] at hb
      rcases List.mem_cons.mp hb with hhead | htail
      · subst hhead
        simp
        omega
      · exact ih (rest.drop 15) (by simp at h ⊢; omega) (by simp; omega) b htail

theorem toBlocks_flatten_of_all16 : ∀ (bs : List (List Nat)),
    (∀ b ∈ bs, b.length = 16) → Crypt.toBlocks bs.flatten = bs := by
  intro bs
  induction bs with
  | nil => intro _; simp [Crypt.toBlocks]
  | cons b rest ih =>
    intro hall
    rw [List.flatten_cons, toBlocks_append16 b _ (hall b (List.mem_cons_self _ _)),
      ih (fun x hx => hall x (List.mem_cons_of_mem _ hx))]

theorem cbcEnc_blocks_len (E : List Nat → List Nat)
    (hElen : ∀ b, b.length = 16 → (E b).length = 16) :
    ∀ (ps : List (List Nat)) (iv : List Nat), iv.length = 16 →
    (∀ b ∈ ps, b.length = 16) →
    ∀ cb ∈ Crypt.cbcEnc E iv ps, cb.length = 16 := by
  intro ps
  induction ps with
  | nil => intro iv _ _ cb hcb; simp [Crypt.cbcEnc] at hcb
  | cons p tl ih =>
    intro iv hiv hall cb hcb
    have hp : p.length = 16 := hall p (List.mem_cons_self _ _)
    have hxor : (Crypt.xorBytes iv p).length = 16 := by
      rw [xorBytes_length, hiv, hp]; simp
    rw [Crypt.cbcEnc] at hcb
    rcases List.mem_cons.mp hcb with hhead | htail
    · subst hhead
      exact hElen _ hxor
    · exact ih (E (Crypt.xorBytes iv p)) (hElen _ hxor)
        (fun x hx => hall x (List.mem_cons_of_mem _ hx)) cb htail

theorem cbcEnc_count (E : List Nat → List Nat) :
    ∀ (ps : List (List Nat)) (iv : List Nat),
    (Crypt.cbcEnc E iv ps).length = ps.length := by
  intro ps
  induction ps with
  | nil => intro iv; rfl
  | cons p tl ih =>
    intro iv
    rw [Crypt.cbcEnc]
    simp only [List.length_cons]
    rw [ih]

theorem cbcDec_cbcEnc (E D : List Nat → List Nat)
    (hED : ∀ b, b.length = 16 → D (E b) = b)
    (hElen : ∀ b, b.length = 16 → (E b).length = 16) :
    ∀ (ps : List (List Nat)) (iv : List Nat), iv.length = 16 →
    (∀ b ∈ ps, b.length = 16) →
    Crypt.cbcDec D iv (Crypt.cbcEnc E iv ps) = ps := by
  intro ps
  induction ps with
  | nil => intro iv _ _; rfl
  | cons p tl ih =>
    intro iv hiv hall
    have hp : p.length = 16 := hall p (List.mem_cons_self _ _)
    have hxor : (Crypt.xorBytes iv p).length = 16 := by
      rw [xorBytes_length, hiv, hp]; simp
    rw [Crypt.cbcEnc]
    rw [Crypt.cbcDec]
    rw [hED _ hxor, xorBytes_cancel iv p (by rw [hiv, hp])]
    rw [ih (E (Crypt.xorBytes iv p)) (hElen _ hxor)
      (fun x hx => hall x (List.mem_cons_of_mem _ hx))]

theorem flatten_len_all16 : ∀ (L : List (List Nat)),
    (∀ b ∈ L, b.length = 16) → L.flatten.length = 16 * L.length := by
  intro L
  induction L with
  | nil => intro _; rfl
  | cons b rest ih =>
    intro hall
    rw [List.flatten_cons, List.length_append, hall b (List.mem_cons_self _ _),
      ih (fun x hx => hall x (List.mem_cons_of_mem _ hx))]
    simp only [List.length_cons]
    ring

theorem pkcs7Pad_mod (l : List Nat) : (Crypt.pkcs7Pad l).length % 16 = 0 := by
  simp [Crypt.pkcs7Pad]
  omega

theorem getLastD_append_last : ∀ (l : List Nat) (a d : Nat),
    (l ++ [a]).getLastD d = a := by
  intro l
  induction l with
  | nil => intro a d; rfl
  | cons x xs ih =>
    intro a d
    rw [List.cons_append, List.getLastD_cons, ih]

theorem replicate_self_split (k : Nat) (hk : 1 ≤ k) :
    List.replicate k k = List.replicate (k - 1) k ++ [k] := by
  cases k with
  | zero => exact absurd hk (by omega)
  | succ n =>
    rw [List.replicate_succ']
    simp

theorem pkcs7_roundtrip (l : List Nat) : Crypt.pkcs7Unpad (Crypt.pkcs7Pad l) = l := by
  unfold Crypt.pkcs7Pad Crypt.pkcs7Unpad
  dsimp only
  have hk1 : 1 ≤ 16 - l.length % 16 := by omega
  rw [replicate_self_split _ hk1]
  rw [← List.append_assoc, getLastD_append_last]
  rw [List.length_append, List.length_append, List.length_replicate, List.length_singleton]
  rw [show l.length + (16 - l.length % 16 - 1) + 1 - (16 - l.length % 16) = l.length by omega]
  rw [List.append_assoc]
  exact List.take_left l _

/-- C4: an AES crypt filter round-trips: decrypting the output of encrypt
under the same key returns the original plaintext, and the ciphertext is
exactly 16 bytes (the prepended IV) longer than the PKCS#7-padded
plaintext.  The block cipher is abstract: it sends 16-byte blocks to
16-byte blocks and decryption inverts encryption under the same key. -/
theorem aes_crypt_filter_round_trip (E D : List Nat → List Nat → List Nat)
    (key iv plaintext : List Nat)
    (hED : ∀ b, b.length = 16 → D key (E key b) = b)
    (hElen : ∀ b, b.length = 16 → (E key b).length = 16)
    (hiv : iv.length = 16) :
    Crypt.AESCryptFilterMixin.decrypt D key
        (Crypt.AESCryptFilterMixin.encrypt E key plaintext iv) = plaintext ∧
    (Crypt.AESCryptFilterMixin.encrypt E key plaintext iv).length
      = 16 + (Crypt.pkcs7Pad plaintext).length := by
  have hblocks : ∀ b ∈ Crypt.toBlocks (Crypt.pkcs7Pad plaintext), b.length = 16 :=
    toBlocks_all16 (Crypt.pkcs7Pad plaintext).length _ le_rfl (pkcs7Pad_mod plaintext)
  have hencBlocks : ∀ cb ∈ Crypt.cbcEnc (E key) iv (Crypt.toBlocks (Crypt.pkcs7Pad plaintext)),
      cb.length = 16 :=
    cbcEnc_blocks_len (E key) hElen _ iv hiv hblocks
  constructor
  · unfold Crypt.AESCryptFilterMixin.encrypt Crypt.AESCryptFilterMixin.decrypt
      Crypt.aes_cbc_pkcs7_encrypt Crypt.aes_cbc_pkcs7_decrypt
    dsimp only
    rw [show iv ++ (Crypt.cbcEnc (E key) iv (Crypt.toBlocks (Crypt.pkcs7Pad plaintext))).flatten
        = iv ++ (Crypt.cbcEnc (E key) iv (Crypt.toBlocks (Crypt.pkcs7Pad plaintext))).flatten
      from rfl]
    rw [show (iv ++ (Crypt.cbcEnc (E key) iv
          (Crypt.toBlocks (Crypt.pkcs7Pad plaintext))).flatten).drop 16
        = (Crypt.cbcEnc (E key) iv (Crypt.toBlocks (Crypt.pkcs7Pad plaintext))).flatten by
      rw [← hiv]; exact List.drop_left iv _]
    rw [show (iv ++ (Crypt.cbcEnc (E key) iv
          (Crypt.toBlocks (Crypt.pkcs7Pad plaintext))).flatten).take 16
        = iv by
      rw [← hiv]; exact List.take_left iv _]
    rw [toBlocks_flatten_of_all16 _ hencBlocks]
    rw [cbcDec_cbcEnc (E key) (D key) hED hElen _ iv hiv hblocks]
    rw [flatten_toBlocks]
    exact pkcs7_roundtrip plaintext
  · unfold Crypt.AESCryptFilterMixin.encrypt Crypt.aes_cbc_pkcs7_encrypt
    dsimp only
    rw [List.length_append, hiv]
    rw [flatten_len_all16 _ hencBlocks, cbcEnc_count]
    rw [show (16 : Nat) * (Crypt.toBlocks (Crypt.pkcs7Pad plaintext)).length
        = (Crypt.toBlocks (Crypt.pkcs7Pad plaintext)).flatten.length from
      (flatten_len_all16 _ hblocks).symm]
    rw [flatten_toBlocks]

/-- Witness for C4: the identity block cipher, a zero IV and a 3-byte
plaintext. -/
theorem aes_crypt_filter_round_trip_witness :
    Crypt.AESCryptFilterMixin.decrypt (fun _ b => b) []
        (Crypt.AESCryptFilterMixin.encrypt (fun _ b => b) [] [1, 2, 3]
          (List.replicate 16 0)) = [1, 2, 3] ∧
    (Crypt.AESCryptFilterMixin.encrypt (fun _ b => b) [] [1, 2, 3]
        (List.replicate 16 0)).length = 16 + (Crypt.pkcs7Pad [1, 2, 3]).length :=
  aes_crypt_filter_round_trip (fun _ b => b) (fun _ b => b) [] (List.replicate 16 0)
    [1, 2, 3] (fun b _ => rfl) (fun b hb => hb) (by simp)

/-- C7: the xref-stream field decoder against the claim that every field of
declared width w > 0 is read as the big-endian unsigned integer of its w
bytes.  That reading holds only for w < 8 (and for w = 8 without the top
bit): at width 9 the code sums digit ** (size - ix - 1) without the base
256, so the bytes 01 00 .. 00 decode to 2 instead of 2^64, and at width 8
the signed ">q" unpack turns ff .. ff into -1 instead of 2^64 - 1.  The
width-zero defaults (1 for the type field, 0 otherwise) do hold. -/
theorem convert_to_int_wide_width_bug :
    Reader.convert_to_int [1, 0, 0, 0, 0, 0, 0, 0, 0] 9 = 2 ∧
    (Reader.beNat [1, 0, 0, 0, 0, 0, 0, 0, 0] : Int) = 18446744073709551616 ∧
    Reader.convert_to_int (List.replicate 8 0xff) 8 = -1 ∧
    (Reader.beNat (List.replicate 8 0xff) : Int) = 18446744073709551615 ∧
    Reader.get_entry [9, 1, 2] 0 [1, 0, 0, 0, 0, 0, 0, 0, 0] = 2 ∧
    Reader.get_entry [0, 1, 2] 0 [] = 1 ∧
    Reader.get_entry [1, 0, 2] 1 [] = 0 := by
  refine ⟨by decide, by decide, by decide, by decide, by decide, by decide, by decide⟩

/-- C8: the shared_key property of a crypt filter is lazy and latching: with
no cached key and no failure it invokes derive_shared_encryption_key once
and caches the result, any later access returns the cached key without
re-deriving, and with no cached key after a failed authentication it raises
the authentication error without consulting the derivation at all. -/
theorem shared_key_lazy_caching (derive : Except Crypt.PdfError (List Nat))
    (k : List Nat) (auth_failed : Bool) :
    Crypt.CryptFilter.shared_key_access none false (.ok k) = .ok (k, some k, true) ∧
    Crypt.CryptFilter.shared_key_access (some k) auth_failed derive
      = .ok (k, some k, false) ∧
    Crypt.CryptFilter.shared_key_access none true derive
      = .error .authenticationFailed := ⟨rfl, rfl, rfl⟩

/-- C9: a failed authentication latches the auth-failed flag and no later
call clears it, not even a successful authentication that stores a file
encryption key; consequently a standard crypt filter with no materialised
shared key still raises the authentication failure on shared_key access,
although get_file_encryption_key on the handler returns the key. -/
theorem auth_failed_latch (st : Crypt.HandlerAuthState) (k : List Nat)
    (key : Option (List Nat)) :
    (Crypt.StandardSecurityHandler.record_auth_result st key).auth_failed
        = (st.auth_failed || key.isNone) ∧
    (Crypt.StandardSecurityHandler.record_auth_result
        (Crypt.StandardSecurityHandler.record_auth_result st none)
        (some k)).auth_failed = true ∧
    (Crypt.StandardSecurityHandler.record_auth_result
        (Crypt.StandardSecurityHandler.record_auth_result st none)
        (some k)).shared_key = some k ∧
    Crypt.CryptFilter.shared_key_access none
        (Crypt.StandardSecurityHandler.record_auth_result
          (Crypt.StandardSecurityHandler.record_auth_result st none)
          (some k)).auth_failed
        (Crypt.StandardSecurityHandler.get_file_encryption_key
          (Crypt.StandardSecurityHandler.record_auth_result
            (Crypt.StandardSecurityHandler.record_auth_result st none) (some k)))
      = .error .authenticationFailed ∧
    Crypt.StandardSecurityHandler.get_file_encryption_key
        (Crypt.StandardSecurityHandler.record_auth_result
          (Crypt.StandardSecurityHandler.record_auth_result st none) (some k))
      = .ok k := by
  refine ⟨?_, rfl, rfl, rfl, rfl⟩
  cases key <;> simp [Crypt.StandardSecurityHandler.record_auth_result]

end PdfUtils
